import Mathlib

/-!
Verification development for `Task_5.py`, a delimited-record validator and
report generator.  The Python functions `validate_record` and `process_file`
are shallowly embedded below: strings are Lean `String`s, Python's `float`
values are modelled by `PyFloat` (exact rationals plus the special values
`inf`, `-inf` and `nan`), the mutable `seen_ids` set is threaded explicitly
as a `List Int` observed only through membership, and the file/CLI layer is
modelled by an explicit `FileInput` describing the outcome of opening the
input file.
-/

/-- The ASCII whitespace characters removed by Python's `str.strip()`. -/
def isPySpace (c : Char) : Bool :=
  c = ' ' || c = '\t' || c = '\n' || c = '\r' || c = '\x0b' || c = '\x0c'

/-- Remove trailing whitespace from a character list (structural recursion). -/
def dropTrailingSpace : List Char → List Char
  | [] => []
  | c :: rest =>
    match dropTrailingSpace rest with
    | [] => if isPySpace c then [] else [c]
    | r => c :: r

/-- Python `str.strip()`: removes leading and trailing whitespace. -/
def pyStrip (s : String) : String :=
  String.mk (dropTrailingSpace (s.data.dropWhile isPySpace))

/-- Fuel-driven worker for `pySplit`; the fuel is an upper bound on the number
of characters still to be scanned, so with a non-empty separator the
zero-fuel branch is never reached. -/
def splitGo (delim : List Char) : Nat → List Char → List Char → List (List Char)
  | _, acc, [] => [acc.reverse]
  | 0, acc, rest => [acc.reverse ++ rest]
  | fuel + 1, acc, c :: rest =>
    if delim.isPrefixOf (c :: rest) then
      acc.reverse :: splitGo delim fuel [] ((c :: rest).drop delim.length)
    else
      splitGo delim fuel (c :: acc) rest

/-- Python `str.split(sep)` for a non-empty separator `sep`: leftmost,
non-overlapping matches; `"".split(sep) = [""]`. -/
def pySplit (s delim : String) : List String :=
  (splitGo delim.data s.data.length [] s.data).map String.mk

/-- Decimal digit value of a character. -/
def digitVal (c : Char) : Nat := c.toNat - 48

/-- Digits after the first one, allowing single underscores between digits,
accumulating the value and the number of digits read. -/
def digitsCntAux : List Char → Nat → Nat → Option (Nat × Nat)
  | [], acc, k => some (acc, k)
  | '_' :: c :: rest, acc, k =>
    if c.isDigit then digitsCntAux rest (acc * 10 + digitVal c) (k + 1) else none
  | ['_'], _, _ => none
  | c :: rest, acc, k =>
    if c.isDigit then digitsCntAux rest (acc * 10 + digitVal c) (k + 1) else none

/-- A non-empty run of decimal digits with optional single underscores between
digits (the digit-run grammar shared by Python's `int()` and `float()`),
returning the value and the number of digits. -/
def pyDigitsCnt? : List Char → Option (Nat × Nat)
  | [] => none
  | c :: rest => if c.isDigit then digitsCntAux rest (digitVal c) 1 else none

/-- The value of a digit run, discarding the digit count. -/
def pyDigits? (l : List Char) : Option Nat := (pyDigitsCnt? l).map Prod.fst

/-- An optionally signed digit run, as used by `int()` after stripping and by
float exponents. -/
def pyIntCore : List Char → Option Int
  | '+' :: rest => (pyDigits? rest).map Int.ofNat
  | '-' :: rest => (pyDigits? rest).map (fun n => -(n : Int))
  | l => (pyDigits? l).map Int.ofNat

/-- Python `int(s)` in base 10: surrounding whitespace is ignored, then an
optional sign followed by a digit run. -/
def pyInt? (s : String) : Option Int :=
  pyIntCore (pyStrip s).data

/-- Model of a Python `float` value: an exact rational for finite values, plus
the special values `inf`, `-inf` and `nan`. -/
inductive PyFloat where
  | finite (q : ℚ)
  | inf
  | neginf
  | nan
deriving DecidableEq

/-- The comparison `x < 0` on Python floats (`nan < 0` is false). -/
def PyFloat.lt0 : PyFloat → Bool
  | PyFloat.finite q => decide (q < 0)
  | PyFloat.inf => false
  | PyFloat.neginf => true
  | PyFloat.nan => false

/-- The comparison `x >= 0` on Python floats (`nan >= 0` is false). -/
def PyFloat.ge0 : PyFloat → Bool
  | PyFloat.finite q => decide (0 ≤ q)
  | PyFloat.inf => true
  | PyFloat.neginf => false
  | PyFloat.nan => false

/-- Split a character list at the first character satisfying `p`, returning
the part before it and (when found) the part after it. -/
def splitAtFirst (p : Char → Bool) : List Char → List Char × Option (List Char)
  | [] => ([], none)
  | c :: rest =>
    if p c then ([], some rest)
    else
      let q := splitAtFirst p rest
      (c :: q.1, q.2)

/-- Ten to a natural power (kernel-reducible). -/
def pow10Nat : Nat → Nat
  | 0 => 1
  | n + 1 => 10 * pow10Nat n

/-- The mantissa grammar of Python `float()`: `digits`, `digits.`,
`digits.digits` or `.digits`, with underscores allowed inside digit runs.
The value is returned as an exact numerator/denominator pair. -/
def parseMantissa (l : List Char) : Option (Int × Nat) :=
  let cut := splitAtFirst (fun c => c = '.') l
  match cut.2 with
  | none => (pyDigitsCnt? cut.1).map (fun p => ((p.1 : Int), 1))
  | some fp =>
    match cut.1, fp with
    | [], [] => none
    | [], _ :: _ =>
      (pyDigitsCnt? fp).map (fun p => ((p.1 : Int), pow10Nat p.2))
    | _ :: _, [] => (pyDigitsCnt? cut.1).map (fun p => ((p.1 : Int), 1))
    | _ :: _, _ :: _ => do
      let i ← pyDigitsCnt? cut.1
      let f ← pyDigitsCnt? fp
      pure (((i.1 * pow10Nat f.2 + f.1 : Nat) : Int), pow10Nat f.2)

/-- The numeric grammar of Python `float()`: a mantissa with an optional
`e`/`E` exponent, assembled into an exact rational with `mkRat`. -/
def pyFloatNum (l : List Char) : Option ℚ :=
  let cut := splitAtFirst (fun c => c = 'e' || c = 'E') l
  match cut.2 with
  | none => (parseMantissa cut.1).map (fun m => mkRat m.1 m.2)
  | some ex => do
    let m ← parseMantissa cut.1
    let e ← pyIntCore ex
    match e with
    | Int.ofNat k => pure (mkRat (m.1 * (pow10Nat k : Int)) m.2)
    | Int.negSucc k => pure (mkRat m.1 (m.2 * pow10Nat (k + 1)))

/-- The body of a Python float literal after the optional sign: either one of
the case-insensitive special words `inf`, `infinity`, `nan`, or a number. -/
def pyFloatBody (neg : Bool) (l : List Char) : Option PyFloat :=
  let low := l.map Char.toLower
  if low = ['i', 'n', 'f'] || low = ['i', 'n', 'f', 'i', 'n', 'i', 't', 'y'] then
    some (if neg then PyFloat.neginf else PyFloat.inf)
  else if low = ['n', 'a', 'n'] then
    some PyFloat.nan
  else
    (pyFloatNum l).map (fun q => PyFloat.finite (if neg then -q else q))

/-- Python `float(s)`: surrounding whitespace is ignored, then an optional
sign and a float body.  Finite values are kept as exact rationals. -/
def pyFloat? (s : String) : Option PyFloat :=
  match (pyStrip s).data with
  | '+' :: rest => pyFloatBody false rest
  | '-' :: rest => pyFloatBody true rest
  | l => pyFloatBody false l

/-- The `id_errors` block of `validate_record`: empty identifier, otherwise
integer parse failure, otherwise duplicate check against `seen_ids`. -/
def id_field_errors (id_str : String) (seen_ids : List Int) : List String :=
  if pyStrip id_str = "" then ["Пустой идентификатор"]
  else
    match pyInt? id_str with
    | some id_num => if id_num ∈ seen_ids then ["Дублирующийся идентификатор"] else []
    | none => ["Некорректный формат идентификатора"]

/-- The `name_errors` block of `validate_record`. -/
def name_field_errors (name : String) : List String :=
  if pyStrip name = "" then ["Пустое название"] else []

/-- The `value_errors` block of `validate_record`: empty value, otherwise
float parse failure, otherwise negativity check. -/
def value_field_errors (value_str : String) : List String :=
  if pyStrip value_str = "" then ["Пустое значение"]
  else
    match pyFloat? value_str with
    | some v => if v.lt0 then ["Отрицательное значение"] else []
    | none => ["Некорректное числовое значение"]

/-- The `all_errors` list of `validate_record`: the three per-field error
lists, each prefixed with its field label, in field order id, name, value. -/
def all_field_errors (id_str name value_str : String) (seen_ids : List Int) : List String :=
  (id_field_errors id_str seen_ids).map (fun e => "ID: " ++ e) ++
  (name_field_errors name).map (fun e => "Name: " ++ e) ++
  (value_field_errors value_str).map (fun e => "Value: " ++ e)

/-- The three-field branch of `validate_record`: collect all field errors; on
any error fail with them, otherwise re-parse the id, insert it into
`seen_ids` and succeed (with a defensive internal-error fallback). -/
def validate3 (id_str name value_str : String) (seen_ids : List Int) :
    Bool × List String × List Int :=
  if all_field_errors id_str name value_str seen_ids = [] then
    match pyInt? id_str with
    | some id_num => (true, [], id_num :: seen_ids)
    | none => (false, ["Внутренняя ошибка: не удалось преобразовать ID"], seen_ids)
  else
    (false, all_field_errors id_str name value_str seen_ids, seen_ids)

/-- `validate_record` after the split: a field count other than 3 fails
immediately with a single structural error. -/
def validateParts : List String → List Int → Bool × List String × List Int
  | [id_str, name, value_str], seen_ids => validate3 id_str name value_str seen_ids
  | parts, seen_ids =>
    (false, ["Ожидается 3 поля, получено " ++ toString parts.length], seen_ids)

/-- `validate_record(record, delimiter, seen_ids)` from `Task_5.py`.  The
returned triple is `(is_valid, errors, seen_ids-after-the-call)`; the set is
modelled by a list observed through membership only. -/
def validate_record (record delimiter : String) (seen_ids : List Int) :
    Bool × List String × List Int :=
  validateParts (pySplit (pyStrip record) delimiter) seen_ids

/-- A fully validated record as `process_file` stores it: id, name (the raw
second field), value and the stripped original line. -/
structure ParsedRecord where
  id : Int
  name : String
  value : PyFloat
  original : String
deriving DecidableEq

/-- The accumulator of the per-line loop in `process_file`: total line count,
the two record buckets, the error tally (an insertion-ordered association
list, like a Python dict) and the running seen-id set. -/
structure ScanState where
  total : Nat
  valid_records : List ParsedRecord
  invalid_records : List (Nat × String × List String)
  error_counts : List (String × Nat)
  seen_ids : List Int
deriving DecidableEq

/-- `error_counts[error] += 1` on an insertion-ordered association list. -/
def bump (counts : List (String × Nat)) (e : String) : List (String × Nat) :=
  match counts with
  | [] => [(e, 1)]
  | (k, v) :: rest => if k = e then (k, v + 1) :: rest else (k, v) :: bump rest e

/-- Python's `enumerate(f, start=n)`. -/
def enumFrom1 {α : Type} : Nat → List α → List (Nat × α)
  | _, [] => []
  | n, x :: rest => (n, x) :: enumFrom1 (n + 1) rest

/-- The single-error list used on the defensive re-parse failure path of
`process_file`. -/
def internalErrorMsg : String := "Внутренняя ошибка обработки"

/-- The body of the per-line loop of `process_file`: count the line, validate
it, then either re-split and re-parse it into a `ParsedRecord` (with the
defensive internal-error fallback) or record the rejection and tally its
errors. -/
def processLine (delimiter : String) (st : ScanState) (ln : Nat × String) : ScanState :=
  if (validate_record ln.2 delimiter st.seen_ids).1 then
    match pySplit (pyStrip ln.2) delimiter with
    | p0 :: p1 :: p2 :: _ =>
      match pyInt? p0, pyFloat? p2 with
      | some id_num, some value =>
        ⟨st.total + 1, st.valid_records ++ [⟨id_num, p1, value, pyStrip ln.2⟩],
          st.invalid_records, st.error_counts,
          (validate_record ln.2 delimiter st.seen_ids).2.2⟩
      | _, _ =>
        ⟨st.total + 1, st.valid_records,
          st.invalid_records ++ [(ln.1, pyStrip ln.2, [internalErrorMsg])],
          bump st.error_counts internalErrorMsg,
          (validate_record ln.2 delimiter st.seen_ids).2.2⟩
    | _ =>
      ⟨st.total + 1, st.valid_records,
        st.invalid_records ++ [(ln.1, pyStrip ln.2, [internalErrorMsg])],
        bump st.error_counts internalErrorMsg,
        (validate_record ln.2 delimiter st.seen_ids).2.2⟩
  else
    ⟨st.total + 1, st.valid_records,
      st.invalid_records ++ [(ln.1, pyStrip ln.2, (validate_record ln.2 delimiter st.seen_ids).2.1)],
      (validate_record ln.2 delimiter st.seen_ids).2.1.foldl bump st.error_counts,
      (validate_record ln.2 delimiter st.seen_ids).2.2⟩

/-- The state of `process_file` before the loop. -/
def initState : ScanState := ⟨0, [], [], [], []⟩

/-- The whole per-line scan of `process_file` over the input lines. -/
def scanLines (lines : List String) (delimiter : String) : ScanState :=
  (enumFrom1 1 lines).foldl (processLine delimiter) initState

/-- Kernel-reducible reimplementation of rational addition (proved equal to
`+` in `ratAdd_eq`). -/
def ratAdd (a b : ℚ) : ℚ :=
  mkRat (a.num * (b.den : Int) + b.num * (a.den : Int)) (a.den * b.den)

/-- Kernel-reducible division of a rational by a natural number (proved equal
to `/` in `ratDivNat_eq`). -/
def ratDivNat (a : ℚ) (n : Nat) : ℚ := mkRat a.num (a.den * n)

/-- IEEE-style addition on Python floats (`nan` absorbs, `inf + -inf = nan`). -/
def PyFloat.add : PyFloat → PyFloat → PyFloat
  | PyFloat.nan, _ => PyFloat.nan
  | _, PyFloat.nan => PyFloat.nan
  | PyFloat.inf, PyFloat.neginf => PyFloat.nan
  | PyFloat.neginf, PyFloat.inf => PyFloat.nan
  | PyFloat.inf, _ => PyFloat.inf
  | _, PyFloat.inf => PyFloat.inf
  | PyFloat.neginf, _ => PyFloat.neginf
  | _, PyFloat.neginf => PyFloat.neginf
  | PyFloat.finite a, PyFloat.finite b => PyFloat.finite (ratAdd a b)

/-- Division of a Python float by a positive record count. -/
def PyFloat.divNat : PyFloat → Nat → PyFloat
  | PyFloat.nan, _ => PyFloat.nan
  | PyFloat.inf, _ => PyFloat.inf
  | PyFloat.neginf, _ => PyFloat.neginf
  | PyFloat.finite q, n => PyFloat.finite (ratDivNat q n)

/-- The strict `>` comparison on Python floats (`nan` compares false). -/
def PyFloat.gt : PyFloat → PyFloat → Bool
  | PyFloat.nan, _ => false
  | _, PyFloat.nan => false
  | PyFloat.inf, PyFloat.inf => false
  | PyFloat.inf, _ => true
  | PyFloat.neginf, _ => false
  | PyFloat.finite _, PyFloat.inf => false
  | PyFloat.finite _, PyFloat.neginf => true
  | PyFloat.finite a, PyFloat.finite b => decide (b < a)

/-- The strict `<` comparison on Python floats (`nan` compares false). -/
def PyFloat.lt : PyFloat → PyFloat → Bool
  | PyFloat.nan, _ => false
  | _, PyFloat.nan => false
  | PyFloat.neginf, PyFloat.neginf => false
  | PyFloat.neginf, _ => true
  | PyFloat.inf, _ => false
  | PyFloat.finite _, PyFloat.neginf => false
  | PyFloat.finite _, PyFloat.inf => true
  | PyFloat.finite a, PyFloat.finite b => decide (a < b)

/-- Python `sum(values)`: fold addition starting from 0. -/
def pySum (values : List PyFloat) : PyFloat :=
  values.foldl PyFloat.add (PyFloat.finite 0)

/-- Python `max(values)` on a non-empty list: keep the current element unless
the next one compares strictly greater. -/
def pyMaxF : PyFloat → List PyFloat → PyFloat
  | cur, [] => cur
  | cur, x :: rest => pyMaxF (if x.gt cur then x else cur) rest

/-- Python `min(values)` on a non-empty list. -/
def pyMinF : PyFloat → List PyFloat → PyFloat
  | cur, [] => cur
  | cur, x :: rest => pyMinF (if x.lt cur then x else cur) rest

/-- Python `min(ids)` on a non-empty integer list. -/
def pyMinInt : Int → List Int → Int
  | cur, [] => cur
  | cur, x :: rest => pyMinInt (if x < cur then x else cur) rest

/-- Python `max(ids)` on a non-empty integer list. -/
def pyMaxInt : Int → List Int → Int
  | cur, [] => cur
  | cur, x :: rest => pyMaxInt (if cur < x then x else cur) rest

/-- The aggregate statistics block computed by `process_file`. -/
structure Aggregates where
  avg_value : PyFloat
  max_value : PyFloat
  min_value : PyFloat
  min_id : Int
  max_id : Int
  unique_ids_count : Nat
deriving DecidableEq

/-- The aggregates of a run with no valid records: everything is zero. -/
def zeroAggregates : Aggregates :=
  ⟨PyFloat.finite 0, PyFloat.finite 0, PyFloat.finite 0, 0, 0, 0⟩

/-- The aggregate computation of `process_file`: average/max/min of `value`,
min/max of `id` and the count of distinct ids, over valid records only; all
zero when there are none. -/
def computeAggregates : List ParsedRecord → Aggregates
  | [] => zeroAggregates
  | r :: rest =>
    let values := (r :: rest).map (fun x => x.value)
    let ids := (r :: rest).map (fun x => x.id)
    ⟨(pySum values).divNat values.length,
      pyMaxF r.value (rest.map (fun x => x.value)),
      pyMinF r.value (rest.map (fun x => x.value)),
      pyMinInt r.id (rest.map (fun x => x.id)),
      pyMaxInt r.id (rest.map (fun x => x.id)),
      ids.dedup.length⟩

/-- Round a rational scaled by 100 to the nearest integer, ties to even
(the rounding used when formatting with two decimal places). -/
def roundHalfEven100 (q : ℚ) : Int :=
  let r := q.num * 100
  let d : Int := (q.den : Int)
  let f := Int.fdiv r d
  let rem := r - d * f
  if 2 * rem < d then f
  else if d < 2 * rem then f + 1
  else if f % 2 = 0 then f else f + 1

/-- Fixed-point rendering of a rational with two decimal places, as in the
format specifier `.2f`. -/
def fmtQ2 (q : ℚ) : String :=
  let n := roundHalfEven100 q
  (if n < 0 then "-" else "") ++ toString (n.natAbs / 100) ++ "." ++
  (if n.natAbs % 100 < 10 then "0" else "") ++ toString (n.natAbs % 100)

/-- `.2f` formatting of a Python float. -/
def PyFloat.fmt2 : PyFloat → String
  | PyFloat.finite q => fmtQ2 q
  | PyFloat.inf => "inf"
  | PyFloat.neginf => "-inf"
  | PyFloat.nan => "nan"

/-- Right-align a string in a field of width `w` (numeric `{x:w}` format). -/
def padLeft (w : Nat) (s : String) : String :=
  String.mk (List.replicate (w - s.data.length) ' ') ++ s

/-- Left-align a string in a field of width `w` (string `{s:w}` format). -/
def padRight (w : Nat) (s : String) : String :=
  s ++ String.mk (List.replicate (w - s.data.length) ' ')

/-- Code-point lexicographic comparison of character lists (Python string
ordering). -/
def charListLt : List Char → List Char → Bool
  | [], [] => false
  | [], _ :: _ => true
  | _ :: _, [] => false
  | a :: as, b :: bs => if a < b then true else if b < a then false else charListLt as bs

/-- Python `<` on strings. -/
def strLt (a b : String) : Bool := charListLt a.data b.data

/-- Stable insertion into a key-sorted association list. -/
def insertByKey (x : String × Nat) : List (String × Nat) → List (String × Nat)
  | [] => [x]
  | y :: rest => if strLt x.1 y.1 then x :: y :: rest else y :: insertByKey x rest

/-- Python `sorted(error_counts.items())` (keys are unique, so sorting by key
matches tuple sorting). -/
def sortByKey (l : List (String × Nat)) : List (String × Nat) :=
  l.foldr insertByKey []

/-- Stable insertion into an id-sorted record list. -/
def insertById (x : ParsedRecord) : List ParsedRecord → List ParsedRecord
  | [] => [x]
  | y :: rest => if x.id < y.id then x :: y :: rest else y :: insertById x rest

/-- Python `sorted(valid_records, key=lambda x: x['id'])`. -/
def sortById (l : List ParsedRecord) : List ParsedRecord :=
  l.foldr insertById []

/-- Sum of all tally counts (`sum(error_counts.values())`). -/
def sumCounts (l : List (String × Nat)) : Nat :=
  l.foldl (fun a p => a + p.2) 0

/-- The header and summary block of the report. -/
def summaryLines (st : ScanState) : List String :=
  let agg := computeAggregates st.valid_records
  [String.mk (List.replicate 70 '='),
   "ОТЧЁТ ОБ ОБРАБОТКЕ ДАННЫХ",
   String.mk (List.replicate 70 '='),
   "Общее количество записей: " ++ toString st.total,
   "Корректных записей: " ++ toString st.valid_records.length,
   "Некорректных записей: " ++ toString st.invalid_records.length,
   "Уникальных идентификаторов: " ++ toString agg.unique_ids_count,
   "Общее количество ошибок: " ++ toString (sumCounts st.error_counts),
   "\nАгрегированная статистика (по корректным записям):",
   "  Диапазон идентификаторов: " ++ toString agg.min_id ++ " - " ++ toString agg.max_id,
   "  Среднее значение value: " ++ PyFloat.fmt2 agg.avg_value,
   "  Максимальное значение value: " ++ PyFloat.fmt2 agg.max_value,
   "  Минимальное значение value: " ++ PyFloat.fmt2 agg.min_value]

/-- The alphabetically sorted error-type tally section. -/
def tallyLines (counts : List (String × Nat)) : List String :=
  (sortByKey counts).map (fun p => "  - " ++ p.1 ++ ": " ++ toString p.2)

/-- The report lines for one rejected record: a single `Ошибка:` line, or a
numbered list when several errors apply, followed by a blank separator. -/
def renderInvalid : Nat × String × List String → List String
  | (line_num, record, errors) =>
    match errors with
    | [e] => ["  Строка " ++ toString line_num ++ ": " ++ record, "      Ошибка: " ++ e, ""]
    | _ =>
      ["  Строка " ++ toString line_num ++ ": " ++ record,
       "      Обнаружено " ++ toString errors.length ++ " ошибок:"] ++
      (enumFrom1 1 errors).map (fun p => "        " ++ toString p.1 ++ ". " ++ p.2) ++ [""]

/-- The rejected-record detail section, with its fallback message. -/
def invalidSection (invalid : List (Nat × String × List String)) : List String :=
  if invalid.isEmpty then ["  Некорректных записей не найдено."]
  else invalid.foldr (fun t acc => renderInvalid t ++ acc) []

/-- One valid record rendered in fixed-width columns. -/
def renderValid (r : ParsedRecord) : String :=
  "  ID: " ++ padLeft 4 (toString r.id) ++ " | Название: " ++ padRight 15 r.name ++
  " | Value: " ++ padLeft 7 (PyFloat.fmt2 r.value)

/-- The valid-record section, sorted ascending by id, with its fallback
message. -/
def validSection (valid : List ParsedRecord) : List String :=
  if valid.isEmpty then ["  Корректных записей не найдено."]
  else (sortById valid).map renderValid

/-- All lines of the report, in order. -/
def reportLines (st : ScanState) : List String :=
  summaryLines st ++
  ["\nПолный список ошибок (по типам):"] ++ tallyLines st.error_counts ++
  ["\nДетализация некорректных записей:"] ++ invalidSection st.invalid_records ++
  ["\nКорректные записи:"] ++ validSection st.valid_records

/-- Python `"\n".join(lines)`. -/
def joinNL : List String → String
  | [] => ""
  | [s] => s
  | s :: rest => s ++ "\n" ++ joinNL rest

/-- The report text written to the output file. -/
def report_text (st : ScanState) : String := joinNL (reportLines st)

/-- The outcome of opening the input file: its lines, a missing file, or any
other read error. -/
inductive FileInput where
  | ok (lines : List String)
  | notFound
  | readError (msg : String)
deriving DecidableEq

/-- The observable result of a run: console output, the exit status requested
via `sys.exit` (none for a normal return), and the report contents when a
report file was written. -/
structure RunResult where
  stdout : List String
  exitCode : Option Nat
  report : Option String
deriving DecidableEq

/-- The message printed when the input file does not exist. -/
def notFoundMsg (p : String) : String :=
  "Ошибка: файл \x27" ++ p ++ "\x27 не найден."

/-- The message printed on any other input read error. -/
def readErrMsg (e : String) : String :=
  "Ошибка при чтении файла: " ++ e

/-- `process_file(input_path, delimiter, output_path)` from `Task_5.py`.
`input` models the result of opening the input file and `writeError` the
outcome of writing the report (`none` on success). -/
def process_file (input_path : String) (input : FileInput) (delimiter : String)
    (output_path : String) (writeError : Option String) : RunResult :=
  match input with
  | FileInput.notFound => ⟨[notFoundMsg input_path], some 1, none⟩
  | FileInput.readError e => ⟨[readErrMsg e], some 1, none⟩
  | FileInput.ok lines =>
    let st := scanLines lines delimiter
    let text := report_text st
    match writeError with
    | none => ⟨["Отчёт сохранён в файл: " ++ output_path], none, some text⟩
    | some e => ⟨["Ошибка при сохранении отчёта: " ++ e], none, none⟩

/-- The usage text printed by the `__main__` block when no input file
argument is given. -/
def usageLines : List String :=
  ["Использование: python data_processor.py <input_file> [delimiter] [output_file]",
   "Пример: python data_processor.py data.txt \x27,\x27 report.txt",
   "\nФормат данных (3 поля): id,name,value",
   "  - id: уникальный целочисленный идентификатор (обязательное поле)",
   "  - name: непустое название (обязательное поле)",
   "  - value: неотрицательное число (обязательное поле)",
   "\nПрограмма обнаруживает ВСЕ ошибки в каждой строке."]

/-- The `__main__` block of `Task_5.py`: `args` are the command-line
arguments after the program name. -/
def main_model (args : List String) (input : FileInput) (writeError : Option String) :
    RunResult :=
  match args with
  | [] => ⟨usageLines, some 1, none⟩
  | input_file :: rest =>
    let delimiter := rest.headD ","
    let output_file := (rest.drop 1).headD "report.txt"
    process_file input_file input delimiter output_file writeError

/-- The four-line scenario from the specification. -/
def scenarioLines : List String :=
  ["1,Widget,10.5", "1,Gadget,-3", ",NoId,5", "abc,Name,notanumber"]

/-- The id-field error block is empty exactly when the id is non-blank,
parses as an integer and is not already a seen id. -/
lemma id_field_errors_eq_nil (i : String) (s : List Int) :
    id_field_errors i s = [] ↔ pyStrip i ≠ "" ∧ ∃ k, pyInt? i = some k ∧ k ∉ s := by
  unfold id_field_errors
  split
  · rename_i hb
    simp [hb]
  · rename_i hb
    cases h : pyInt? i with
    | some k =>
      by_cases hk : k ∈ s <;> simp [h, hk, hb]
    | none => simp [h, hb]

/-- The name-field error block is empty exactly when the name is non-blank. -/
lemma name_field_errors_eq_nil (n : String) :
    name_field_errors n = [] ↔ pyStrip n ≠ "" := by
  unfold name_field_errors
  split <;> simp [*]

/-- The value-field error block is empty exactly when the value is non-blank,
parses as a float and that float is not negative. -/
lemma value_field_errors_eq_nil (v : String) :
    value_field_errors v = [] ↔
      pyStrip v ≠ "" ∧ ∃ x, pyFloat? v = some x ∧ x.lt0 = false := by
  unfold value_field_errors
  split
  · rename_i hb
    simp [hb]
  · rename_i hb
    cases h : pyFloat? v with
    | some x =>
      cases hx : x.lt0 <;> simp [h, hx, hb]
    | none => simp [h, hb]

/-- The combined error list is empty exactly when all three field blocks are. -/
lemma all_field_errors_eq_nil (i n v : String) (s : List Int) :
    all_field_errors i n v s = [] ↔
      id_field_errors i s = [] ∧ name_field_errors n = [] ∧ value_field_errors v = [] := by
  simp [all_field_errors]

/-- A field count other than 3 takes the structural-error branch. -/
lemma validateParts_not3 (parts : List String) (s : List Int) (h : parts.length ≠ 3) :
    validateParts parts s =
      (false, ["Ожидается 3 поля, получено " ++ toString parts.length], s) := by
  match parts with
  | [] => rfl
  | [a] => rfl
  | [a, b] => rfl
  | [a, b, c] => exact absurd rfl h
  | a :: b :: c :: d :: t => rfl

/-- With a non-empty error list, the three-field branch fails with exactly
that list and leaves the seen-id set unchanged. -/
lemma validate3_of_errors (i n v : String) (s : List Int)
    (h : all_field_errors i n v s ≠ []) :
    validate3 i n v s = (false, all_field_errors i n v s, s) := by
  unfold validate3
  rw [if_neg h]

/-- A successful three-field validation: no field errors, the id re-parses,
and the result inserts it into the seen-id set. -/
lemma validate3_success (i n v : String) (s : List Int)
    (h : (validate3 i n v s).1 = true) :
    all_field_errors i n v s = [] ∧
      ∃ k, pyInt? i = some k ∧ validate3 i n v s = (true, [], k :: s) := by
  unfold validate3 at h ⊢
  by_cases he : all_field_errors i n v s = []
  · rw [if_pos he] at h ⊢
    cases hk : pyInt? i with
    | some k => exact ⟨he, k, rfl, rfl⟩
    | none =>
      rw [hk] at h
      simp at h
  · rw [if_neg he] at h
    simp at h

/-- On any failing path the validator leaves the seen-id set unchanged. -/
lemma validateParts_fail_seen (parts : List String) (s : List Int)
    (h : (validateParts parts s).1 = false) :
    (validateParts parts s).2.2 = s := by
  match parts with
  | [] => rfl
  | [a] => rfl
  | [a, b] => rfl
  | a :: b :: c :: d :: t => rfl
  | [i, n, v] =>
    have h2 : (validate3 i n v s).1 = false := h
    show (validate3 i n v s).2.2 = s
    unfold validate3 at h2 ⊢
    by_cases he : all_field_errors i n v s = []
    · rw [if_pos he] at h2 ⊢
      cases hk : pyInt? i with
      | some k => rw [hk] at h2; exact Bool.noConfusion h2
      | none => rfl
    · rw [if_neg he]

/-- A successful `validate_record` call: the split has exactly three fields,
every field check passes, and the parsed id is pushed onto the seen-id set. -/
lemma validate_success (record delimiter : String) (s : List Int)
    (h : (validate_record record delimiter s).1 = true) :
    ∃ i n v k x, pySplit (pyStrip record) delimiter = [i, n, v] ∧
      pyStrip i ≠ "" ∧ pyInt? i = some k ∧ k ∉ s ∧
      pyStrip n ≠ "" ∧ pyFloat? v = some x ∧ x.lt0 = false ∧
      validate_record record delimiter s = (true, [], k :: s) := by
  unfold validate_record at h ⊢
  rcases hp : pySplit (pyStrip record) delimiter with _ | ⟨a, _ | ⟨b, _ | ⟨c, _ | ⟨d, t⟩⟩⟩⟩ <;>
    rw [hp] at h
  · rw [validateParts_not3 _ _ (by simp)] at h; simp at h
  · rw [validateParts_not3 _ _ (by simp)] at h; simp at h
  · rw [validateParts_not3 _ _ (by simp)] at h; simp at h
  · obtain ⟨he, k, hk, heq⟩ := validate3_success a b c s h
    obtain ⟨hid, hname, hval⟩ := (all_field_errors_eq_nil a b c s).mp he
    obtain ⟨hib, k2, hk2, hk2mem⟩ := (id_field_errors_eq_nil a s).mp hid
    obtain ⟨hvb, x, hx, hxneg⟩ := (value_field_errors_eq_nil c).mp hval
    have hkk : k2 = k := by rw [hk] at hk2; exact (Option.some_inj.mp hk2).symm
    subst hkk
    exact ⟨a, b, c, k2, x, rfl, hib, hk2, hk2mem,
      (name_field_errors_eq_nil b).mp hname, hx, hxneg, heq⟩
  · rw [validateParts_not3 _ _ (by simp)] at h; simp at h

/-- Each processed line increments the total and appends exactly one record
to exactly one of the two buckets (accepted XOR rejected). -/
lemma processLine_step (delimiter : String) (st : ScanState) (ln : Nat × String) :
    (processLine delimiter st ln).total = st.total + 1 ∧
    ((∃ rec, (processLine delimiter st ln).valid_records = st.valid_records ++ [rec] ∧
        (processLine delimiter st ln).invalid_records = st.invalid_records) ∨
      (∃ rej, (processLine delimiter st ln).invalid_records = st.invalid_records ++ [rej] ∧
        (processLine delimiter st ln).valid_records = st.valid_records)) := by
  unfold processLine
  by_cases hv : (validate_record ln.2 delimiter st.seen_ids).1 = true
  · rw [if_pos hv]
    split
    · split
      · exact ⟨rfl, Or.inl ⟨_, rfl, rfl⟩⟩
      · exact ⟨rfl, Or.inr ⟨_, rfl, rfl⟩⟩
    · exact ⟨rfl, Or.inr ⟨_, rfl, rfl⟩⟩
  · rw [if_neg hv]
    exact ⟨rfl, Or.inr ⟨_, rfl, rfl⟩⟩

/-- The seen-id set after a processed line is exactly the set returned by the
validator for that line. -/
lemma processLine_seen (delimiter : String) (st : ScanState) (ln : Nat × String) :
    (processLine delimiter st ln).seen_ids =
      (validate_record ln.2 delimiter st.seen_ids).2.2 := by
  unfold processLine
  by_cases hv : (validate_record ln.2 delimiter st.seen_ids).1 = true
  · rw [if_pos hv]
    split
    · split <;> rfl
    · rfl
  · rw [if_neg hv]

/-- When validation fails, the line is recorded as rejected with the
validator's error list and the tally is updated. -/
lemma processLine_of_fail (delimiter : String) (st : ScanState) (ln : Nat × String)
    (h : (validate_record ln.2 delimiter st.seen_ids).1 = false) :
    processLine delimiter st ln =
      ⟨st.total + 1, st.valid_records,
        st.invalid_records ++
          [(ln.1, pyStrip ln.2, (validate_record ln.2 delimiter st.seen_ids).2.1)],
        (validate_record ln.2 delimiter st.seen_ids).2.1.foldl bump st.error_counts,
        (validate_record ln.2 delimiter st.seen_ids).2.2⟩ := by
  unfold processLine
  rw [if_neg (by simp [h])]

/-- When validation succeeds, the re-split and re-parse succeed as well and
the line becomes a `ParsedRecord`. -/
lemma processLine_of_success (delimiter : String) (st : ScanState) (ln : Nat × String)
    (i n v : String) (k : Int) (x : PyFloat)
    (hsplit : pySplit (pyStrip ln.2) delimiter = [i, n, v])
    (hk : pyInt? i = some k) (hx : pyFloat? v = some x)
    (heq : validate_record ln.2 delimiter st.seen_ids = (true, [], k :: st.seen_ids)) :
    processLine delimiter st ln =
      ⟨st.total + 1, st.valid_records ++ [⟨k, n, x, pyStrip ln.2⟩],
        st.invalid_records, st.error_counts, k :: st.seen_ids⟩ := by
  unfold processLine
  rw [heq, hsplit, if_pos rfl]
  simp only [hk, hx]

/-- The loop invariant of `process_file`: the seen-id set holds exactly the
ids of the records accepted so far, those ids are pairwise distinct, and
every line handled so far is in exactly one bucket. -/
def ScanInv (st : ScanState) : Prop :=
  (∀ i : Int, i ∈ st.seen_ids ↔ ∃ r ∈ st.valid_records, r.id = i) ∧
  (st.valid_records.map (fun r => r.id)).Nodup ∧
  st.valid_records.length + st.invalid_records.length = st.total

/-- Processing one line preserves the loop invariant. -/
lemma scanInv_step (delimiter : String) (st : ScanState) (ln : Nat × String)
    (h : ScanInv st) : ScanInv (processLine delimiter st ln) := by
  obtain ⟨hmem, hnodup, hcount⟩ := h
  cases hv : (validate_record ln.2 delimiter st.seen_ids).1 with
  | false =>
    have hseen : (validate_record ln.2 delimiter st.seen_ids).2.2 = st.seen_ids :=
      validateParts_fail_seen _ _ hv
    rw [processLine_of_fail delimiter st ln hv, hseen]
    refine ⟨hmem, hnodup, ?_⟩
    simp only [List.length_append, List.length_cons, List.length_nil]
    omega
  | true =>
    obtain ⟨i, n, v, k, x, hsplit, hib, hk, hkmem, hnb, hx, hxneg, heq⟩ :=
      validate_success _ _ _ hv
    rw [processLine_of_success delimiter st ln i n v k x hsplit hk hx heq]
    refine ⟨?_, ?_, ?_⟩
    · intro j
      rw [List.mem_cons, hmem j]
      constructor
      · rintro (hj | ⟨r, hr, hrid⟩)
        · exact ⟨⟨k, n, x, pyStrip ln.2⟩, by simp, hj.symm⟩
        · exact ⟨r, by simp [hr], hrid⟩
      · rintro ⟨r, hr, hrid⟩
        rcases List.mem_append.mp hr with hr2 | hr2
        · exact Or.inr ⟨r, hr2, hrid⟩
        · rw [List.mem_singleton.mp hr2] at hrid
          exact Or.inl hrid.symm
    · have hkNot : k ∉ st.valid_records.map (fun r => r.id) := by
        intro hc
        obtain ⟨r, hr, hrid⟩ := List.mem_map.mp hc
        exact hkmem ((hmem k).mpr ⟨r, hr, hrid⟩)
      rw [List.map_append]
      refine List.Nodup.append hnodup (List.nodup_singleton _) ?_
      intro a ha hb
      simp only [List.map_cons, List.map_nil, List.mem_singleton] at hb
      subst hb
      exact hkNot ha
    · simp only [List.length_append, List.length_cons, List.length_nil]
      omega

/-- The loop invariant is preserved by folding over any line list. -/
lemma scanInv_foldl (delimiter : String) (l : List (Nat × String)) (st : ScanState)
    (h : ScanInv st) : ScanInv (l.foldl (processLine delimiter) st) := by
  induction l generalizing st with
  | nil => exact h
  | cons a t ih => exact ih _ (scanInv_step delimiter st a h)

/-- The invariant holds before the loop. -/
lemma scanInv_init : ScanInv initState := by
  unfold ScanInv initState
  refine ⟨?_, ?_, rfl⟩ <;> simp

/-- The invariant holds after the whole scan. -/
lemma scanInv_scan (lines : List String) (delimiter : String) :
    ScanInv (scanLines lines delimiter) :=
  scanInv_foldl _ _ _ scanInv_init

/-- Folding over `l` adds `l.length` to the total. -/
lemma foldl_total (delimiter : String) (l : List (Nat × String)) (st : ScanState) :
    (l.foldl (processLine delimiter) st).total = st.total + l.length := by
  induction l generalizing st with
  | nil => rfl
  | cons a t ih =>
    rw [List.foldl_cons, ih]
    have := (processLine_step delimiter st a).1
    simp only [List.length_cons]
    omega

/-- Enumeration preserves the number of lines. -/
lemma enumFrom1_length {α : Type} (n : Nat) (l : List α) :
    (enumFrom1 n l).length = l.length := by
  induction l generalizing n with
  | nil => rfl
  | cons a t ih => simp [enumFrom1, ih]

/-- The total after the scan is the number of input lines. -/
lemma scan_total (lines : List String) (delimiter : String) :
    (scanLines lines delimiter).total = lines.length := by
  unfold scanLines
  rw [foldl_total]
  simp [initState, enumFrom1_length]

/-- `ratAdd` agrees with rational addition. -/
lemma ratAdd_eq (a b : ℚ) : ratAdd a b = a + b := by
  have ha : ((a.den : ℚ)) ≠ 0 := by exact_mod_cast a.den_nz
  have hb : ((b.den : ℚ)) ≠ 0 := by exact_mod_cast b.den_nz
  have ha' : (a.num : ℚ) = a * (a.den : ℚ) := (div_eq_iff ha).mp (Rat.num_div_den a)
  have hb' : (b.num : ℚ) = b * (b.den : ℚ) := (div_eq_iff hb).mp (Rat.num_div_den b)
  unfold ratAdd
  rw [Rat.mkRat_eq_div]
  push_cast
  rw [ha', hb', div_eq_iff (mul_ne_zero ha hb)]
  ring

/-- `ratDivNat` agrees with rational division for a non-zero divisor. -/
lemma ratDivNat_eq (a : ℚ) (n : Nat) (h : n ≠ 0) : ratDivNat a n = a / (n : ℚ) := by
  have ha : ((a.den : ℚ)) ≠ 0 := by exact_mod_cast a.den_nz
  have hn : ((n : ℚ)) ≠ 0 := by exact_mod_cast h
  have ha' : (a.num : ℚ) = a * (a.den : ℚ) := (div_eq_iff ha).mp (Rat.num_div_den a)
  unfold ratDivNat
  rw [Rat.mkRat_eq_div]
  push_cast
  rw [ha', div_eq_div_iff (mul_ne_zero ha hn) hn]
  ring

/-- Dropping a predicate across an appended singleton. -/
lemma dropWhile_append_singleton (p : Char → Bool) (xs : List Char) (c : Char) :
    (xs ++ [c]).dropWhile p =
      if (xs.dropWhile p).isEmpty then [c].dropWhile p else xs.dropWhile p ++ [c] := by
  induction xs with
  | nil => simp
  | cons a as ih =>
    by_cases hp : p a
    · simp only [List.cons_append, List.dropWhile_cons, hp, if_true, ih]
    · simp [List.dropWhile_cons, hp]

/-- The structural trailing-whitespace trimmer agrees with
reverse/dropWhile/reverse. -/
lemma dropTrailingSpace_eq (l : List Char) :
    dropTrailingSpace l = (l.reverse.dropWhile isPySpace).reverse := by
  induction l with
  | nil => rfl
  | cons c rest ih =>
    have hD : rest.reverse.dropWhile isPySpace = (dropTrailingSpace rest).reverse := by
      rw [ih, List.reverse_reverse]
    rw [List.reverse_cons, dropWhile_append_singleton, hD]
    cases h2 : dropTrailingSpace rest with
    | nil =>
      have hL : dropTrailingSpace (c :: rest) = if isPySpace c then [] else [c] := by
        simp only [dropTrailingSpace, h2]
      rw [hL]
      simp only [List.reverse_nil, List.isEmpty_nil, if_true, List.dropWhile]
      cases hc : isPySpace c <;> simp
    | cons a as =>
      have hL : dropTrailingSpace (c :: rest) = c :: dropTrailingSpace rest := by
        simp only [dropTrailingSpace, h2]
      rw [hL, h2]
      simp

/-- Modelled from the spec: trimming only trailing newline/whitespace before
the split, as step 1 of the validator contract words it. -/
def stripTrailingOnlySpec (s : String) : String :=
  String.mk (dropTrailingSpace s.data)

/-- The spec-level description of Python strip: remove leading and trailing
whitespace, written independently of `pyStrip`. -/
def stripBothSpec (s : String) : String :=
  String.mk ((s.data.dropWhile isPySpace).reverse.dropWhile isPySpace).reverse

/-- The code's strip is exactly the leading-and-trailing trimmer. -/
lemma pyStrip_eq_stripBothSpec (s : String) : pyStrip s = stripBothSpec s := by
  unfold pyStrip stripBothSpec
  rw [dropTrailingSpace_eq]

/-- The first seven characters of the file-not-found message. -/
lemma notFoundMsg_take7 (p : String) :
    (notFoundMsg p).data.take 7 = "Ошибка:".data := by
  obtain ⟨l⟩ := p
  rfl

/-- The first seven characters of the generic read-error message. -/
lemma readErrMsg_take7 (e : String) :
    (readErrMsg e).data.take 7 = "Ошибка ".data := by
  obtain ⟨l⟩ := e
  rfl

/-- The two fatal input-error messages are distinct, whatever the path and
exception text. -/
lemma notFoundMsg_ne_readErrMsg (p e : String) : notFoundMsg p ≠ readErrMsg e := by
  intro h
  have h7 : (notFoundMsg p).data.take 7 = (readErrMsg e).data.take 7 := by rw [h]
  rw [notFoundMsg_take7, readErrMsg_take7] at h7
  exact absurd h7 (by decide)

/-- A line whose id field parses to an already-seen id always fails
validation. -/
lemma validate_fail_of_mem (line delimiter i n v : String) (seen : List Int) (k : Int)
    (hsplit : pySplit (pyStrip line) delimiter = [i, n, v])
    (hk : pyInt? i = some k) (hmem : k ∈ seen) :
    (validate_record line delimiter seen).1 = false := by
  unfold validate_record
  rw [hsplit]
  show (validate3 i n v seen).1 = false
  have hid : id_field_errors i seen ≠ [] := by
    rw [Ne, id_field_errors_eq_nil]
    rintro ⟨hb, k2, hk2, hk2n⟩
    rw [hk] at hk2
    obtain rfl : k = k2 := Option.some_inj.mp hk2
    exact hk2n hmem
  have hall : all_field_errors i n v seen ≠ [] := by
    rw [Ne, all_field_errors_eq_nil]
    rintro ⟨h1, _, _⟩
    exact hid h1
  unfold validate3
  rw [if_neg hall]

/-- Claim C4: `validate_record` mutates `seen_ids` only when it returns
success; on every failure path — structural error, any field validation
error, and the defensive internal-error path where the post-validation
re-parse of the id fails — the seen-id set is left unchanged. -/
theorem claim_C4 (record delimiter : String) (seen : List Int)
    (h : (validate_record record delimiter seen).1 = false) :
    (validate_record record delimiter seen).2.2 = seen :=
  validateParts_fail_seen _ _ h

/-- Witness for C4 at a concrete rejected line. -/
theorem claim_C4_witness :
    (validate_record "a,b" "," [7]).1 = false ∧
      (validate_record "a,b" "," [7]).2.2 = [7] :=
  ⟨by decide, claim_C4 "a,b" "," [7] (by decide)⟩

/-- Claim C5: a line splitting into a field count other than 3 fails
immediately with is_valid false, exactly one structural error stating
expected versus actual field count, and no seen-id mutation (hence no field
checks are run). -/
theorem claim_C5 (record delimiter : String) (seen : List Int)
    (h : (pySplit (pyStrip record) delimiter).length ≠ 3) :
    validate_record record delimiter seen =
      (false,
        ["Ожидается 3 поля, получено " ++
          toString (pySplit (pyStrip record) delimiter).length],
        seen) := by
  unfold validate_record
  exact validateParts_not3 _ _ h

/-- Witness for C5 at a concrete two-field line. -/
theorem claim_C5_witness :
    (pySplit (pyStrip "a,b") ",").length ≠ 3 ∧
      validate_record "a,b" "," [] =
        (false,
          ["Ожидается 3 поля, получено " ++
            toString (pySplit (pyStrip "a,b") ",").length],
          []) :=
  ⟨by decide, claim_C5 "a,b" "," [] (by decide)⟩

/-- Counterexample to C7 as stated: the code strips the line with Python
`strip()`, which removes LEADING whitespace as well; trailing-only trimming
yields different fields, observably so with a space delimiter, where the
code accepts a line that trailing-only trimming would reject as having four
fields. -/
theorem claim_C7_counterexample :
    pySplit (pyStrip " 1,a,2") "," = ["1", "a", "2"] ∧
      pySplit (stripTrailingOnlySpec " 1,a,2") "," = [" 1", "a", "2"] ∧
      pySplit (pyStrip " 1,a,2") "," ≠ pySplit (stripTrailingOnlySpec " 1,a,2") "," ∧
      (validate_record " 1 a 2" " " []).1 = true ∧
      (validateParts (pySplit (stripTrailingOnlySpec " 1 a 2") " ") []).1 = false := by
  decide

/-- Claim C7 (amended): `validate_record` splits the line by the delimiter
after trimming BOTH leading and trailing whitespace from it (Python
`str.strip()`). -/
theorem claim_C7 (line delimiter : String) :
    pySplit (pyStrip line) delimiter = pySplit (stripBothSpec line) delimiter := by
  rw [pyStrip_eq_stripBothSpec]

/-- Counterexample to C1 as stated: the line `1,a,nan` is accepted (NaN is
not `< 0`), yet its parsed value does not satisfy `value >= 0`. -/
theorem claim_C1_counterexample :
    (validate_record "1,a,nan" "," []).1 = true ∧
      pySplit (pyStrip "1,a,nan") "," = ["1", "a", "nan"] ∧
      pyFloat? "nan" = some PyFloat.nan ∧
      PyFloat.ge0 PyFloat.nan = false := by
  decide

/-- Claim C1 (amended): for every record accepted by `validate_record` the id
field parses as an integer, the name is non-blank after trimming, and the
value field parses as a float that is not negative (`value < 0` is false;
NaN also passes); and after a scan the accepted count equals the total line
count minus the rejected count. -/
theorem claim_C1 :
    (∀ record delimiter seen, delimiter ≠ "" →
      (validate_record record delimiter seen).1 = true →
      ∃ i n v k x, pySplit (pyStrip record) delimiter = [i, n, v] ∧
        pyInt? i = some k ∧ pyStrip n ≠ "" ∧
        pyFloat? v = some x ∧ x.lt0 = false) ∧
    (∀ (lines : List String) delimiter, delimiter ≠ "" →
      (scanLines lines delimiter).total = lines.length ∧
      (scanLines lines delimiter).valid_records.length =
        lines.length - (scanLines lines delimiter).invalid_records.length) := by
  constructor
  · intro record delimiter seen _ h
    obtain ⟨i, n, v, k, x, hs, _, hk, _, hn, hx, hneg, _⟩ := validate_success _ _ _ h
    exact ⟨i, n, v, k, x, hs, hk, hn, hx, hneg⟩
  · intro lines delimiter _
    have ht := scan_total lines delimiter
    have hc := (scanInv_scan lines delimiter).2.2
    exact ⟨ht, by omega⟩

/-- Witness for C1 at a concrete accepted line. -/
theorem claim_C1_witness :
    ∃ i n v k x, pySplit (pyStrip "1,a,2") "," = [i, n, v] ∧
      pyInt? i = some k ∧ pyStrip n ≠ "" ∧
      pyFloat? v = some x ∧ x.lt0 = false :=
  claim_C1.1 "1,a,2" "," [] (by decide) (by decide)

/-- Claim C9: `process_file` is deterministic — two runs on equal input
contents with equal delimiter and output path produce identical results,
report text included (the embedding is a pure function of these inputs). -/
theorem claim_C9 (p1 p2 delim1 delim2 out1 out2 : String) (l1 l2 : List String)
    (w1 w2 : Option String)
    (hp : p1 = p2) (hl : l1 = l2) (hd : delim1 = delim2) (ho : out1 = out2)
    (hw : w1 = w2) :
    process_file p1 (FileInput.ok l1) delim1 out1 w1 =
      process_file p2 (FileInput.ok l2) delim2 out2 w2 := by
  subst hp hl hd ho hw
  rfl

/-- Witness for C9 at a concrete run. -/
theorem claim_C9_witness :
    process_file "data.txt" (FileInput.ok ["1,a,2"]) "," "report.txt" none =
      process_file "data.txt" (FileInput.ok ["1,a,2"]) "," "report.txt" none :=
  claim_C9 "data.txt" "data.txt" "," "," "report.txt" "report.txt"
    ["1,a,2"] ["1,a,2"] none none rfl rfl rfl rfl rfl

/-- Counterexample to C6 as stated: when the input file cannot be opened the
program prints only the open-failure message — the usage text (and its
field-format description) is NOT printed in that case. -/
theorem claim_C6_counterexample :
    (main_model ["data.txt"] FileInput.notFound none).stdout =
      ["Ошибка: файл \x27data.txt\x27 не найден."] ∧
      (main_model ["data.txt"] FileInput.notFound none).exitCode = some 1 ∧
      "\nФормат данных (3 поля): id,name,value" ∉
        (main_model ["data.txt"] FileInput.notFound none).stdout ∧
      "Использование: python data_processor.py <input_file> [delimiter] [output_file]" ∉
        (main_model ["data.txt"] FileInput.notFound none).stdout := by
  decide

/-- Claim C6 (amended): with no input argument the program exits with status
1 and prints the usage message including the field-format description; when
the input file cannot be opened it exits with status 1 printing a distinct
error message for file-not-found versus any other read error (not the usage
text); in all these cases no report is produced. -/
theorem claim_C6 :
    (∀ input w, main_model [] input w = ⟨usageLines, some 1, none⟩) ∧
    "\nФормат данных (3 поля): id,name,value" ∈ usageLines ∧
    (∀ file rest w, main_model (file :: rest) FileInput.notFound w =
      ⟨[notFoundMsg file], some 1, none⟩) ∧
    (∀ file rest w e, main_model (file :: rest) (FileInput.readError e) w =
      ⟨[readErrMsg e], some 1, none⟩) ∧
    (∀ p e, notFoundMsg p ≠ readErrMsg e) := by
  refine ⟨fun input w => rfl, by decide, fun file rest w => rfl,
    fun file rest w e => rfl, notFoundMsg_ne_readErrMsg⟩

/-- Witness for C6 at concrete arguments. -/
theorem claim_C6_witness :
    main_model [] FileInput.notFound none = ⟨usageLines, some 1, none⟩ ∧
      notFoundMsg "data.txt" ≠ readErrMsg "boom" :=
  ⟨claim_C6.1 FileInput.notFound none, claim_C6.2.2.2.2 "data.txt" "boom"⟩

/-- The id-field error block is empty or exactly one of the three possible
single errors. -/
lemma id_field_errors_cases (i : String) (seen : List Int) :
    id_field_errors i seen = [] ∨
    id_field_errors i seen = ["Пустой идентификатор"] ∨
    id_field_errors i seen = ["Дублирующийся идентификатор"] ∨
    id_field_errors i seen = ["Некорректный формат идентификатора"] := by
  unfold id_field_errors
  split
  · exact Or.inr (Or.inl rfl)
  · cases h : pyInt? i with
    | some k =>
      by_cases hk : k ∈ seen
      · refine Or.inr (Or.inr (Or.inl ?_))
        show (if k ∈ seen then ["Дублирующийся идентификатор"] else []) = _
        rw [if_pos hk]
      · refine Or.inl ?_
        show (if k ∈ seen then ["Дублирующийся идентификатор"] else []) = _
        rw [if_neg hk]
    | none => exact Or.inr (Or.inr (Or.inr rfl))

/-- Claim C2: for a three-field line, the validator evaluates all field rules
independently and, when any error triggers, returns exactly the concatenated
per-field error lists with their field-label prefixes in field order; the
id parse-failure and duplicate errors are mutually exclusive; and the four-
line scenario from the specification yields the stated outcomes. -/
theorem claim_C2 :
    (∀ record delimiter seen i n v,
      pySplit (pyStrip record) delimiter = [i, n, v] →
      (all_field_errors i n v seen ≠ [] →
        validate_record record delimiter seen =
          (false, all_field_errors i n v seen, seen)) ∧
      ¬("Некорректный формат идентификатора" ∈ id_field_errors i seen ∧
          "Дублирующийся идентификатор" ∈ id_field_errors i seen)) ∧
    (scanLines scenarioLines ",").valid_records =
      [⟨1, "Widget", PyFloat.finite (mkRat 21 2), "1,Widget,10.5"⟩] ∧
    (scanLines scenarioLines ",").invalid_records =
      [(2, "1,Gadget,-3",
          ["ID: Дублирующийся идентификатор", "Value: Отрицательное значение"]),
        (3, ",NoId,5", ["ID: Пустой идентификатор"]),
        (4, "abc,Name,notanumber",
          ["ID: Некорректный формат идентификатора",
            "Value: Некорректное числовое значение"])] ∧
    (computeAggregates (scanLines scenarioLines ",").valid_records).unique_ids_count = 1 := by
  refine ⟨?_, by decide, by decide, by decide⟩
  intro record delimiter seen i n v hsplit
  constructor
  · intro hne
    unfold validate_record
    rw [hsplit]
    show validate3 i n v seen = _
    exact validate3_of_errors i n v seen hne
  · rintro ⟨hf, hd⟩
    rcases id_field_errors_cases i seen with h | h | h | h
    · rw [h] at hf
      exact absurd hf (List.not_mem_nil _)
    · rw [h, List.mem_singleton] at hf
      exact absurd hf (by decide)
    · rw [h, List.mem_singleton] at hf
      exact absurd hf (by decide)
    · rw [h, List.mem_singleton] at hd
      exact absurd hd (by decide)

/-- Witness for C2 at the scenario's second line. -/
theorem claim_C2_witness :
    validate_record "1,Gadget,-3" "," [1] =
      (false, all_field_errors "1" "Gadget" "-3" [1], [1]) :=
  (claim_C2.1 "1,Gadget,-3" "," [1] "1" "Gadget" "-3" (by decide)).1 (by decide)

/-- Claim C3: every processed line yields exactly one outcome (accepted XOR
rejected, and the earlier buckets are only appended to); after scanning any
line list the seen-id set holds exactly the ids of the accepted records and
the bucket sizes add up to the total; and a line whose id field parses to
the id of an already-accepted record always fails validation. -/
theorem claim_C3 :
    (∀ delimiter (st : ScanState) ln,
      (processLine delimiter st ln).total = st.total + 1 ∧
      ((∃ rec, (processLine delimiter st ln).valid_records = st.valid_records ++ [rec] ∧
          (processLine delimiter st ln).invalid_records = st.invalid_records) ∨
        (∃ rej, (processLine delimiter st ln).invalid_records = st.invalid_records ++ [rej] ∧
          (processLine delimiter st ln).valid_records = st.valid_records))) ∧
    (∀ (lines : List String) delimiter, delimiter ≠ "" →
      (∀ i : Int, i ∈ (scanLines lines delimiter).seen_ids ↔
        ∃ r ∈ (scanLines lines delimiter).valid_records, r.id = i) ∧
      (scanLines lines delimiter).valid_records.length +
          (scanLines lines delimiter).invalid_records.length =
        (scanLines lines delimiter).total) ∧
    (∀ (lines : List String) delimiter line i n v (r : ParsedRecord),
      delimiter ≠ "" →
      r ∈ (scanLines lines delimiter).valid_records →
      pySplit (pyStrip line) delimiter = [i, n, v] →
      pyInt? i = some r.id →
      (validate_record line delimiter (scanLines lines delimiter).seen_ids).1 = false) := by
  refine ⟨processLine_step, ?_, ?_⟩
  · intro lines delimiter _
    exact ⟨(scanInv_scan lines delimiter).1, (scanInv_scan lines delimiter).2.2⟩
  · intro lines delimiter line i n v r _ hr hsplit hk
    have hmem : r.id ∈ (scanLines lines delimiter).seen_ids :=
      ((scanInv_scan lines delimiter).1 r.id).mpr ⟨r, hr, rfl⟩
    exact validate_fail_of_mem line delimiter i n v _ r.id hsplit hk hmem

/-- Witness for C3: a second occurrence of id 1 is rejected after the first
was accepted. -/
theorem claim_C3_witness :
    (validate_record "1,b,3" "," (scanLines ["1,a,2"] ",").seen_ids).1 = false :=
  claim_C3.2.2 ["1,a,2"] "," "1,b,3" "1" "b" "3"
    ⟨1, "a", PyFloat.finite (mkRat 2 1), "1,a,2"⟩
    (by decide) (by decide) (by decide) (by decide)

/-- Claim C10: all accepted records of one run have pairwise distinct ids,
so the reported unique-identifier count equals the number of valid records
whenever at least one record is valid. -/
theorem claim_C10 (lines : List String) (delimiter : String) (_h0 : delimiter ≠ "") :
    ((scanLines lines delimiter).valid_records.map (fun r => r.id)).Nodup ∧
    ((scanLines lines delimiter).valid_records ≠ [] →
      (computeAggregates (scanLines lines delimiter).valid_records).unique_ids_count =
        (scanLines lines delimiter).valid_records.length) := by
  refine ⟨(scanInv_scan lines delimiter).2.1, ?_⟩
  intro hne
  have hnodup := (scanInv_scan lines delimiter).2.1
  cases hv : (scanLines lines delimiter).valid_records with
  | nil => exact absurd hv hne
  | cons r rest =>
    rw [hv] at hnodup
    show (((r :: rest).map (fun x => x.id)).dedup).length = (r :: rest).length
    rw [List.Nodup.dedup hnodup, List.length_map]

/-- Witness for C10 on the specification scenario. -/
theorem claim_C10_witness :
    (computeAggregates (scanLines scenarioLines ",").valid_records).unique_ids_count =
      (scanLines scenarioLines ",").valid_records.length :=
  (claim_C10 scenarioLines "," (by decide)).2 (by decide)

/-- Counterexample to C8 as stated: a run with zero valid records but one
invalid record still has all aggregates zero, yet the invalid-records detail
section lists the record instead of its fallback message. -/
theorem claim_C8_counterexample :
    (scanLines ["a,b,c"] ",").valid_records = [] ∧
      "  Некорректных записей не найдено." ∉ reportLines (scanLines ["a,b,c"] ",") := by
  decide

/-- Claim C8 (amended): with zero valid records all aggregates are zero and
the valid-records section carries its fallback message; the invalid-records
fallback additionally requires that no record was rejected; for an empty
input file the totals are all zero and both fallbacks appear. -/
theorem claim_C8 :
    (∀ (lines : List String) delimiter, delimiter ≠ "" →
      (scanLines lines delimiter).valid_records = [] →
      computeAggregates (scanLines lines delimiter).valid_records = zeroAggregates ∧
      "  Корректных записей не найдено." ∈ reportLines (scanLines lines delimiter) ∧
      ((scanLines lines delimiter).invalid_records = [] →
        "  Некорректных записей не найдено." ∈ reportLines (scanLines lines delimiter))) ∧
    (∀ delimiter, delimiter ≠ "" →
      (scanLines [] delimiter).total = 0 ∧
      (scanLines [] delimiter).valid_records = [] ∧
      (scanLines [] delimiter).invalid_records = [] ∧
      "  Некорректных записей не найдено." ∈ reportLines (scanLines [] delimiter) ∧
      "  Корректных записей не найдено." ∈ reportLines (scanLines [] delimiter)) := by
  constructor
  · intro lines delimiter _ hv
    refine ⟨by rw [hv]; rfl, ?_, ?_⟩
    · unfold reportLines validSection
      rw [hv]
      simp
    · intro hi
      unfold reportLines invalidSection
      rw [hi]
      simp
  · intro delimiter _
    have h0 : scanLines [] delimiter = initState := rfl
    rw [h0]
    refine ⟨rfl, rfl, rfl, ?_, ?_⟩ <;>
      · unfold reportLines invalidSection validSection initState
        simp

/-- Witness for C8 on the empty input file. -/
theorem claim_C8_witness :
    (scanLines [] ",").total = 0 ∧
      (scanLines [] ",").valid_records = [] ∧
      (scanLines [] ",").invalid_records = [] ∧
      "  Некорректных записей не найдено." ∈ reportLines (scanLines [] ",") ∧
      "  Корректных записей не найдено." ∈ reportLines (scanLines [] ",") :=
  claim_C8.2 "," (by decide)
